import Mathlib

/-!
Shallow embedding of the IS-IS LSDB synchronization engine
(`protocols/isis/server/lsdb.go`): the LSDB store, per-entry SRM/SSN
interface flags, the lifetime aging step, the LSPDU/CSNP/PSNP receive
handlers and the transmit routines, together with theorems about them.

Machine integers (`SequenceNumber : u32`, `RemainingLifetime : u16`) are
modelled as `Nat`: the operations used here are comparisons and a guarded
decrement (only performed when the value is ≥ 2), so no overflow or
underflow can occur and the `Nat` model is exact.

The Go map `map[packet.LSPID]*lsdbEntry` is modelled as an association
list `List (Nat × lsdbEntry)`; map iteration order is irrelevant to the
properties proved (each is stated per key). In-place mutation through the
`*lsdbEntry` pointer is modelled by rewriting the value stored at the key.
Interface identity (Go compares `*netIfa` pointers) is modelled by
structural equality of the `netIfa` record.
-/

namespace ISIS

/-- An 8-octet LSPID, modelled as a natural number; the wire ordering of
LSPIDs (big-endian octet comparison) is the numeric order. -/
abbrev LSPID := Nat

/-- `packet.LSPEntry`: the 16-octet summary of an LSPDU carried in CSNP
and PSNP packets. -/
structure LSPEntry where
  RemainingLifetime : Nat
  LSPID : Nat
  SequenceNumber : Nat
  Checksum : Nat
deriving DecidableEq, Repr

/-- `packet.LSPDU`: the link-state PDU. The TLV payload is omitted; no
operation verified here reads it. -/
structure LSPDU where
  RemainingLifetime : Nat
  LSPID : Nat
  SequenceNumber : Nat
  Checksum : Nat
deriving DecidableEq, Repr

/-- `LSPDU.ToLSPEntry`: project an LSPDU to its summary. -/
def LSPDU.ToLSPEntry (p : LSPDU) : LSPEntry :=
  { RemainingLifetime := p.RemainingLifetime
    LSPID := p.LSPID
    SequenceNumber := p.SequenceNumber
    Checksum := p.Checksum }

/-- `netIfa`: the slice of the interface object the LSDB reads -
identity, `cfg.Passive`, the up L2 neighbor count and the MTU. -/
structure netIfa where
  name : Nat
  Passive : Bool
  upL2Neighbors : Nat
  MTU : Nat
deriving DecidableEq, Repr

/-- `lsdbEntry`: an LSPDU plus the per-interface SRM and SSN flag sets.
Modelled from the spec: the entry type lives in `lsdb_entry.go` (not in
scope); the spec describes it as an LSPDU plus two sets of interfaces. -/
structure lsdbEntry where
  lspdu : LSPDU
  srmFlags : List netIfa
  ssnFlags : List netIfa
deriving DecidableEq, Repr

/-- Modelled from the spec: `lsdbEntry.setSRM` marks the interface in the
SRM set (`lsdb_entry.go` is not in scope). -/
def lsdbEntry.setSRM (e : lsdbEntry) (ifa : netIfa) : lsdbEntry :=
  if ifa ∈ e.srmFlags then e else { e with srmFlags := ifa :: e.srmFlags }

/-- Modelled from the spec: `lsdbEntry.clearSRMFlag` removes the
interface from the SRM set. -/
def lsdbEntry.clearSRMFlag (e : lsdbEntry) (ifa : netIfa) : lsdbEntry :=
  { e with srmFlags := e.srmFlags.filter (fun i => decide (i ≠ ifa)) }

/-- Modelled from the spec: `lsdbEntry.setSSN` marks the interface in the
SSN set. -/
def lsdbEntry.setSSN (e : lsdbEntry) (ifa : netIfa) : lsdbEntry :=
  if ifa ∈ e.ssnFlags then e else { e with ssnFlags := ifa :: e.ssnFlags }

/-- Modelled from the spec: `lsdbEntry.clearSSNFlag` removes the
interface from the SSN set. -/
def lsdbEntry.clearSSNFlag (e : lsdbEntry) (ifa : netIfa) : lsdbEntry :=
  { e with ssnFlags := e.ssnFlags.filter (fun i => decide (i ≠ ifa)) }

/-- Modelled from the spec: `lsdbEntry.clearAllSSNFlags` empties the SSN
set. -/
def lsdbEntry.clearAllSSNFlags (e : lsdbEntry) : lsdbEntry :=
  { e with ssnFlags := [] }

/-- Modelled from the spec: `lsdbEntry.getSSN` reads the SSN flag for an
interface. -/
def lsdbEntry.getSSN (e : lsdbEntry) (ifa : netIfa) : Bool :=
  decide (ifa ∈ e.ssnFlags)

/-- SRM flag read (counterpart of `getSSN`, used to state properties). -/
def lsdbEntry.getSRM (e : lsdbEntry) (ifa : netIfa) : Bool :=
  decide (ifa ∈ e.srmFlags)

/-- Modelled from the spec: `lsdbEntry.getInterfacesSRMSet` lists the
interfaces with SRM set. -/
def lsdbEntry.getInterfacesSRMSet (e : lsdbEntry) : List netIfa :=
  e.srmFlags

/-- Modelled from the spec: `processSameLSPDU` - clear SRM on `ifa`, set
SSN on `ifa` (acknowledge, do not reflood). -/
def lsdbEntry.processSameLSPDU (e : lsdbEntry) (ifa : netIfa) : lsdbEntry :=
  (e.clearSRMFlag ifa).setSSN ifa

/-- Modelled from the spec: `newerLocalLSPDU` - set SRM on `ifa`, clear
SSN on `ifa` (re-flood our newer copy back to the sender). -/
def lsdbEntry.newerLocalLSPDU (e : lsdbEntry) (ifa : netIfa) : lsdbEntry :=
  (e.setSRM ifa).clearSSNFlag ifa

/-- Modelled from the spec: `sameAsInLSPEntry` - equal sequence number
and equal remaining lifetime. -/
def lsdbEntry.sameAsInLSPEntry (e : lsdbEntry) (le : LSPEntry) : Bool :=
  decide (e.lspdu.SequenceNumber = le.SequenceNumber ∧
          e.lspdu.RemainingLifetime = le.RemainingLifetime)

/-- Modelled from the spec: `newerInDatabase` - newer by sequence number
primarily, remaining lifetime as tiebreak. -/
def lsdbEntry.newerInDatabase (e : lsdbEntry) (le : LSPEntry) : Bool :=
  decide (le.SequenceNumber < e.lspdu.SequenceNumber ∨
          (e.lspdu.SequenceNumber = le.SequenceNumber ∧
           le.RemainingLifetime < e.lspdu.RemainingLifetime))

/-- Modelled from the spec: `olderInDatabase` - older by sequence number
primarily, remaining lifetime as tiebreak. -/
def lsdbEntry.olderInDatabase (e : lsdbEntry) (le : LSPEntry) : Bool :=
  decide (e.lspdu.SequenceNumber < le.SequenceNumber ∨
          (e.lspdu.SequenceNumber = le.SequenceNumber ∧
           e.lspdu.RemainingLifetime < le.RemainingLifetime))

/-- Modelled from the spec: `newLSDBEntry` builds a new LSDBEntry from
the LSPDU, with no flags set. -/
def newLSDBEntry (lspdu : LSPDU) : lsdbEntry :=
  { lspdu := lspdu, srmFlags := [], ssnFlags := [] }

/-- Modelled from the spec: `newEmptyLSDBEntry` builds an empty LSDBEntry
holding only the LSPEntry summary (payload absent), with no flags set. -/
def newEmptyLSDBEntry (le : LSPEntry) : lsdbEntry :=
  { lspdu := { RemainingLifetime := le.RemainingLifetime
               LSPID := le.LSPID
               SequenceNumber := le.SequenceNumber
               Checksum := le.Checksum }
    srmFlags := []
    ssnFlags := [] }

/-- The server context visible to the LSDB: the managed interfaces
(`netIfaManager.getAllInterfaces`) and `nets[0].SystemID`. -/
structure Server where
  interfaces : List netIfa
  systemID : Nat
deriving Repr

/-- `netIfaManager.getAllInterfaces`. -/
def getAllInterfaces (srv : Server) : List netIfa :=
  srv.interfaces

/-- `netIfaManager.getAllInterfacesExcept`: all managed interfaces other
than `ifa`. -/
def getAllInterfacesExcept (srv : Server) (ifa : netIfa) : List netIfa :=
  srv.interfaces.filter (fun i => decide (i ≠ ifa))

/-- The LSDB store `l.lsps : map[packet.LSPID]*lsdbEntry`, as an
association list. -/
abbrev LSPMap := List (Nat × lsdbEntry)

/-- Map lookup `l.lsps[k]` (also `_getLSPDU`). -/
def lspsGet (m : LSPMap) (k : Nat) : Option lsdbEntry :=
  match m with
  | [] => none
  | (k2, e) :: rest => if k2 = k then some e else lspsGet rest k

/-- `l._getLSPDU(needle)`. -/
def lsdb_getLSPDU (m : LSPMap) (needle : Nat) : Option lsdbEntry :=
  lspsGet m needle

/-- Map assignment `l.lsps[k] = e` (insert or replace). -/
def lspsSet (m : LSPMap) (k : Nat) (e : lsdbEntry) : LSPMap :=
  (k, e) :: m.filter (fun p => decide (p.1 ≠ k))

/-- In-place mutation of the entry stored under `k` (through the Go
`*lsdbEntry` pointer). -/
def lspsModify (m : LSPMap) (k : Nat) (f : lsdbEntry → lsdbEntry) : LSPMap :=
  m.map (fun p => if p.1 = k then (p.1, f p.2) else p)

/-- `decrementRemainingLifetimes`: one aging tick - delete entries with
remaining lifetime ≤ 1, decrement all others. -/
def decrementRemainingLifetimes (m : LSPMap) : LSPMap :=
  m.filterMap (fun p =>
    if p.2.lspdu.RemainingLifetime ≤ 1 then none
    else some (p.1, { p.2 with lspdu :=
      { p.2.lspdu with RemainingLifetime := p.2.lspdu.RemainingLifetime - 1 } }))

/-- `processNewerLSPDU`: build a new entry from the LSPDU, set SRM on
every interface except `ifa`, clear SRM on `ifa`, set SSN on `ifa`,
store it. -/
def processNewerLSPDU (srv : Server) (m : LSPMap) (ifa : netIfa)
    (lspdu : LSPDU) : LSPMap :=
  let e0 := (getAllInterfacesExcept srv ifa).foldl
    (fun e i => e.setSRM i) (newLSDBEntry lspdu)
  lspsSet m lspdu.LSPID ((e0.clearSRMFlag ifa).setSSN ifa)

/-- `processLSP`: dispatch an inbound LSPDU on its sequence number
against the stored entry. -/
def processLSP (srv : Server) (m : LSPMap) (ifa : netIfa)
    (lspdu : LSPDU) : LSPMap :=
  match lspsGet m lspdu.LSPID with
  | none => processNewerLSPDU srv m ifa lspdu
  | some existingLSDBEntry =>
    if existingLSDBEntry.lspdu.SequenceNumber < lspdu.SequenceNumber then
      processNewerLSPDU srv m ifa lspdu
    else if lspdu.SequenceNumber = existingLSDBEntry.lspdu.SequenceNumber then
      lspsModify m lspdu.LSPID (fun e => e.processSameLSPDU ifa)
    else
      lspsModify m lspdu.LSPID (fun e => e.newerLocalLSPDU ifa)

/-- `packet.CSNP`: a complete sequence number PDU - a source, a declared
LSPID range and the LSPEntry list. -/
structure CSNP where
  SourceID : Nat
  StartLSPID : Nat
  EndLSPID : Nat
  lspEntries : List LSPEntry
deriving DecidableEq, Repr

/-- `CSNP.GetLSPEntries`. -/
def CSNP.GetLSPEntries (c : CSNP) : List LSPEntry :=
  c.lspEntries

/-- Modelled from the spec: `CSNP.RangeContainsLSPID` - the LSPID lies in
the declared `[start_id, end_id]` range (`packet` codec is not in
scope). -/
def CSNP.RangeContainsLSPID (c : CSNP) (id : Nat) : Bool :=
  decide (c.StartLSPID ≤ id ∧ id ≤ c.EndLSPID)

/-- Modelled from the spec: `CSNP.ContainsLSPEntry` - some carried
LSPEntry has this LSPID. -/
def CSNP.ContainsLSPEntry (c : CSNP) (id : Nat) : Bool :=
  c.lspEntries.any (fun e => decide (e.LSPID = id))

/-- `packet.PSNP`: a partial sequence number PDU. -/
structure PSNP where
  SourceID : Nat
  lspEntries : List LSPEntry
deriving DecidableEq, Repr

/-- `PSNP.GetLSPEntries`. -/
def PSNP.GetLSPEntries (p : PSNP) : List LSPEntry :=
  p.lspEntries

/-- `processCSNPLSPEntryUnknown`: store a fresh empty entry for the
LSPID and set SSN towards the sender. -/
def processCSNPLSPEntryUnknown (m : LSPMap) (lspEntry : LSPEntry)
    (frm : netIfa) : LSPMap :=
  lspsSet m lspEntry.LSPID ((newEmptyLSDBEntry lspEntry).setSSN frm)

/-- `processCSNPLSPEntry`: compare one inbound LSPEntry against the
store and toggle the flags towards the sender. -/
def processCSNPLSPEntry (m : LSPMap) (lspEntry : LSPEntry)
    (frm : netIfa) : LSPMap :=
  match lsdb_getLSPDU m lspEntry.LSPID with
  | none => processCSNPLSPEntryUnknown m lspEntry frm
  | some e =>
    if e.sameAsInLSPEntry lspEntry then
      lspsModify m lspEntry.LSPID (fun x => x.clearSRMFlag frm)
    else if e.newerInDatabase lspEntry then
      lspsModify m lspEntry.LSPID (fun x => (x.clearSSNFlag frm).setSRM frm)
    else if e.olderInDatabase lspEntry then
      lspsModify m lspEntry.LSPID (fun x => (x.clearSRMFlag frm).setSSN frm)
    else m

/-- First phase of `processCSNP`: fold `processCSNPLSPEntry` over the
inbound LSPEntry list. -/
def processCSNPEntries (m : LSPMap) (frm : netIfa) (csnp : CSNP) : LSPMap :=
  csnp.GetLSPEntries.foldl (fun acc e => processCSNPLSPEntry acc e frm) m

/-- Second phase of `processCSNP`: for every stored LSPID in the CSNP
range that the CSNP did not list, with positive remaining lifetime and
sequence number, set SRM towards the sender. -/
def processCSNPGapScan (m : LSPMap) (frm : netIfa) (csnp : CSNP) : LSPMap :=
  m.map (fun p =>
    if p.2.lspdu.RemainingLifetime ≤ 0 ∨ p.2.lspdu.SequenceNumber ≤ 0 then p
    else if ¬ (csnp.RangeContainsLSPID p.1 = true) then p
    else if ¬ (csnp.ContainsLSPEntry p.1 = true) then (p.1, p.2.setSRM frm)
    else p)

/-- `processCSNP`: process each listed entry, then run the gap scan. -/
def processCSNP (m : LSPMap) (frm : netIfa) (csnp : CSNP) : LSPMap :=
  processCSNPGapScan (processCSNPEntries m frm csnp) frm csnp

/-- `processPSNP`: for each listed LSPEntry held in the store, clear SRM
towards the sender; unknown LSPIDs are skipped. -/
def processPSNP (m : LSPMap) (frm : netIfa) (psnp : PSNP) : LSPMap :=
  psnp.GetLSPEntries.foldl
    (fun acc lspEntry =>
      match lspsGet acc lspEntry.LSPID with
      | none => acc
      | some _ => lspsModify acc lspEntry.LSPID (fun e => e.clearSRMFlag frm))
    m

/-- `sendLSPDUs`: for each entry and each non-passive interface with SRM
set, invoke `ifa.sendLSPDU(entry.lspdu, level)`. The store is only read;
the returned list records the invocations in order. -/
def sendLSPDUs (m : LSPMap) : List (netIfa × LSPDU) :=
  m.foldr
    (fun p acc =>
      ((p.2.getInterfacesSRMSet.filter (fun ifa => !ifa.Passive)).map
        (fun ifa => (ifa, p.2.lspdu))) ++ acc)
    []

/-- Wire size of one serialized LSPEntry (16 octets). -/
def lspEntryLen : Nat := 16

/-- Greedy MTU packing: entries per emitted PDU, at least one. -/
def entriesPerPDU (mtu : Nat) : Nat := max 1 (mtu / lspEntryLen)

/-- Structural helper for `chunkEntries`; the first argument is fuel,
always instantiated with the list length (structural recursion keeps the
definition kernel-reducible). -/
def chunkEntriesFuel : Nat → Nat → List LSPEntry → List (List LSPEntry)
  | _, _, [] => []
  | 0, _, _ :: _ => []
  | fuel + 1, k, e :: rest =>
    (e :: rest.take (k - 1)) :: chunkEntriesFuel fuel k (rest.drop (k - 1))

/-- Split an LSPEntry list into consecutive nonempty chunks of at most
`k` entries (`k ≥ 1` effective). -/
def chunkEntries (k : Nat) (l : List LSPEntry) : List (List LSPEntry) :=
  chunkEntriesFuel l.length k l

/-- Modelled from the spec: `packet.NewPSNPs` packs the LSPEntry list
into PSNPs under the MTU, in input order; an empty list yields no
packet. The exact per-packet entry budget is abstracted to
`entriesPerPDU mtu`. -/
def NewPSNPs (srcID : Nat) (lspdus : List LSPEntry) (mtu : Nat) : List PSNP :=
  (chunkEntries (entriesPerPDU mtu) lspdus).map
    (fun c => { SourceID := srcID, lspEntries := c })

/-- Smallest LSPID in a chunk (0 on the empty chunk, never used). -/
def chunkStartLSPID : List LSPEntry → Nat
  | [] => 0
  | e :: rest => rest.foldl (fun a x => min a x.LSPID) e.LSPID

/-- Largest LSPID in a chunk (0 on the empty chunk, never used). -/
def chunkEndLSPID : List LSPEntry → Nat
  | [] => 0
  | e :: rest => rest.foldl (fun a x => max a x.LSPID) e.LSPID

/-- The largest 8-octet LSPID, used as `end_id` of the empty CSNP. -/
def maxLSPID : Nat := 2 ^ 64 - 1

/-- Modelled from the spec: `packet.NewCSNPs` packs the LSPEntry list
into CSNPs under the MTU; each fragment declares the lowest and highest
LSPID it packs; an empty list still yields one CSNP covering the full
range with zero entries. -/
def NewCSNPs (srcID : Nat) (entries : List LSPEntry) (mtu : Nat) : List CSNP :=
  match entries with
  | [] => [{ SourceID := srcID, StartLSPID := 0, EndLSPID := maxLSPID,
             lspEntries := [] }]
  | e :: rest =>
    (chunkEntries (entriesPerPDU mtu) (e :: rest)).map
      (fun c => { SourceID := srcID, StartLSPID := chunkStartLSPID c,
                  EndLSPID := chunkEndLSPID c, lspEntries := c })

/-- `getLSPEntries`: snapshot the summary of every stored entry. -/
def getLSPEntries (m : LSPMap) : List LSPEntry :=
  m.map (fun p => p.2.lspdu.ToLSPEntry)

/-- `getCSNPs`: build the CSNPs describing the full store for one
interface's MTU. -/
def getCSNPs (srv : Server) (m : LSPMap) (ifa : netIfa) : List CSNP :=
  NewCSNPs srv.systemID (getLSPEntries m) ifa.MTU

/-- `sendCSNPs`: send every CSNP of the snapshot on the interface; the
returned list records the `ifa.sendCSNP` invocations. -/
def sendCSNPs (srv : Server) (m : LSPMap) (ifa : netIfa) : List (netIfa × CSNP) :=
  (getCSNPs srv m ifa).map (fun c => (ifa, c))

/-- `sendCSNPss`: for every managed interface with at least one up L2
neighbor, send CSNPs; interfaces with none are skipped. -/
def sendCSNPss (srv : Server) (m : LSPMap) : List (netIfa × CSNP) :=
  (getAllInterfaces srv).foldr
    (fun ifa acc =>
      if (ifa.upL2Neighbors < 1) then acc else sendCSNPs srv m ifa ++ acc)
    []

/-- `_getLSPWithSSNSet`: the summaries of the entries whose SSN flag is
set on the interface. -/
def lsdb_getLSPWithSSNSet (m : LSPMap) (ifa : netIfa) : List LSPEntry :=
  m.filterMap (fun p =>
    if p.2.getSSN ifa then some p.2.lspdu.ToLSPEntry else none)

/-- `_clearAllSSNFlags` over the whole store. -/
def lsdb_clearAllSSNFlags (m : LSPMap) : LSPMap :=
  m.map (fun p => (p.1, p.2.clearAllSSNFlags))

/-- `sendPSNPss`: for every non-passive interface, pack the SSN-flagged
summaries into PSNPs and send them; afterwards clear every SSN flag.
Returns the recorded `ifa.sendPSNP` invocations and the updated store. -/
def sendPSNPss (srv : Server) (m : LSPMap) : List (netIfa × PSNP) × LSPMap :=
  ((getAllInterfaces srv).foldr
    (fun ifa acc =>
      if ifa.Passive then acc
      else ((NewPSNPs srv.systemID (lsdb_getLSPWithSSNSet m ifa) ifa.MTU).map
              (fun psnp => (ifa, psnp))) ++ acc)
    [],
   lsdb_clearAllSSNFlags m)

/-- The sequence number stored for `lspdu.LSPID` before a call, taken as
`lspdu.SequenceNumber` itself when no entry exists. -/
def prevSeqNumber (m : LSPMap) (lspdu : LSPDU) : Nat :=
  match lspsGet m lspdu.LSPID with
  | none => lspdu.SequenceNumber
  | some e => e.lspdu.SequenceNumber

/-- The observed-state invariant of spec section 8: every stored entry
has remaining lifetime at least 1. -/
def lifetimeAtLeastOne (m : LSPMap) : Prop :=
  ∀ p ∈ m, 1 ≤ p.2.lspdu.RemainingLifetime

/-! ### Concrete fixtures used by the witness theorems -/

/-- A non-passive interface with one up L2 neighbor. -/
def ifaW1 : netIfa := ⟨2, false, 1, 1492⟩

/-- A passive interface with one up L2 neighbor. -/
def ifaWPassive : netIfa := ⟨3, true, 1, 1492⟩

/-- A passive interface with two up L2 neighbors. -/
def ifaWPassive2 : netIfa := ⟨5, true, 2, 1492⟩

/-- A non-passive interface with no up L2 neighbor. -/
def ifaWNoNbr : netIfa := ⟨6, false, 0, 1492⟩

/-- An entry with SRM and SSN set on both `ifaW1` and `ifaWPassive`. -/
def entryW : lsdbEntry :=
  { lspdu := ⟨1200, 10, 5, 0⟩
    srmFlags := [ifaW1, ifaWPassive]
    ssnFlags := [ifaW1, ifaWPassive] }

/-- A server managing `ifaW1` and `ifaWPassive`. -/
def srvW : Server := ⟨[ifaW1, ifaWPassive], 7⟩

/-- A one-entry store holding `entryW`. -/
def mW : LSPMap := [(10, entryW)]

/-- A server managing `ifaWPassive2` and `ifaWNoNbr`. -/
def srvC : Server := ⟨[ifaWPassive2, ifaWNoNbr], 7⟩

/-! ### Flag-level lemmas -/

theorem lsdbEntry.mem_srmFlags_setSRM (e : lsdbEntry) (i j : netIfa) :
    j ∈ (e.setSRM i).srmFlags ↔ j = i ∨ j ∈ e.srmFlags := by
  unfold lsdbEntry.setSRM
  by_cases h : i ∈ e.srmFlags
  · simp only [if_pos h]
    constructor
    · exact Or.inr
    · rintro (rfl | hj)
      exacts [h, hj]
  · simp [if_neg h, List.mem_cons]

theorem lsdbEntry.mem_ssnFlags_setSSN (e : lsdbEntry) (i j : netIfa) :
    j ∈ (e.setSSN i).ssnFlags ↔ j = i ∨ j ∈ e.ssnFlags := by
  unfold lsdbEntry.setSSN
  by_cases h : i ∈ e.ssnFlags
  · simp only [if_pos h]
    constructor
    · exact Or.inr
    · rintro (rfl | hj)
      exacts [h, hj]
  · simp [if_neg h, List.mem_cons]

theorem lsdbEntry.mem_srmFlags_clearSRMFlag (e : lsdbEntry) (i j : netIfa) :
    j ∈ (e.clearSRMFlag i).srmFlags ↔ j ∈ e.srmFlags ∧ j ≠ i := by
  simp [lsdbEntry.clearSRMFlag, List.mem_filter]

theorem lsdbEntry.mem_ssnFlags_clearSSNFlag (e : lsdbEntry) (i j : netIfa) :
    j ∈ (e.clearSSNFlag i).ssnFlags ↔ j ∈ e.ssnFlags ∧ j ≠ i := by
  simp [lsdbEntry.clearSSNFlag, List.mem_filter]

@[simp] theorem lsdbEntry.ssnFlags_setSRM (e : lsdbEntry) (i : netIfa) :
    (e.setSRM i).ssnFlags = e.ssnFlags := by
  unfold lsdbEntry.setSRM
  split <;> rfl

@[simp] theorem lsdbEntry.srmFlags_setSSN (e : lsdbEntry) (i : netIfa) :
    (e.setSSN i).srmFlags = e.srmFlags := by
  unfold lsdbEntry.setSSN
  split <;> rfl

@[simp] theorem lsdbEntry.ssnFlags_clearSRMFlag (e : lsdbEntry) (i : netIfa) :
    (e.clearSRMFlag i).ssnFlags = e.ssnFlags := rfl

@[simp] theorem lsdbEntry.srmFlags_clearSSNFlag (e : lsdbEntry) (i : netIfa) :
    (e.clearSSNFlag i).srmFlags = e.srmFlags := rfl

@[simp] theorem lsdbEntry.lspdu_setSRM (e : lsdbEntry) (i : netIfa) :
    (e.setSRM i).lspdu = e.lspdu := by
  unfold lsdbEntry.setSRM
  split <;> rfl

@[simp] theorem lsdbEntry.lspdu_setSSN (e : lsdbEntry) (i : netIfa) :
    (e.setSSN i).lspdu = e.lspdu := by
  unfold lsdbEntry.setSSN
  split <;> rfl

@[simp] theorem lsdbEntry.lspdu_clearSRMFlag (e : lsdbEntry) (i : netIfa) :
    (e.clearSRMFlag i).lspdu = e.lspdu := rfl

@[simp] theorem lsdbEntry.lspdu_clearSSNFlag (e : lsdbEntry) (i : netIfa) :
    (e.clearSSNFlag i).lspdu = e.lspdu := rfl

@[simp] theorem lsdbEntry.lspdu_clearAllSSNFlags (e : lsdbEntry) :
    e.clearAllSSNFlags.lspdu = e.lspdu := rfl

@[simp] theorem lsdbEntry.lspdu_processSameLSPDU (e : lsdbEntry) (i : netIfa) :
    (e.processSameLSPDU i).lspdu = e.lspdu := by
  simp [lsdbEntry.processSameLSPDU]

@[simp] theorem lsdbEntry.lspdu_newerLocalLSPDU (e : lsdbEntry) (i : netIfa) :
    (e.newerLocalLSPDU i).lspdu = e.lspdu := by
  simp [lsdbEntry.newerLocalLSPDU]

theorem lsdbEntry.getSRM_iff (e : lsdbEntry) (i : netIfa) :
    e.getSRM i = true ↔ i ∈ e.srmFlags := by
  simp [lsdbEntry.getSRM]

theorem lsdbEntry.getSSN_iff (e : lsdbEntry) (i : netIfa) :
    e.getSSN i = true ↔ i ∈ e.ssnFlags := by
  simp [lsdbEntry.getSSN]

theorem lsdbEntry.getSRM_processSameLSPDU_self (e : lsdbEntry) (i : netIfa) :
    (e.processSameLSPDU i).getSRM i = false := by
  rw [Bool.eq_false_iff]
  intro h
  rw [lsdbEntry.getSRM_iff] at h
  simp only [lsdbEntry.processSameLSPDU, lsdbEntry.srmFlags_setSSN,
    lsdbEntry.mem_srmFlags_clearSRMFlag] at h
  exact h.2 rfl

theorem lsdbEntry.getSSN_processSameLSPDU_self (e : lsdbEntry) (i : netIfa) :
    (e.processSameLSPDU i).getSSN i = true := by
  rw [lsdbEntry.getSSN_iff]
  simp [lsdbEntry.processSameLSPDU, lsdbEntry.mem_ssnFlags_setSSN]

theorem lsdbEntry.getSRM_newerLocalLSPDU_self (e : lsdbEntry) (i : netIfa) :
    (e.newerLocalLSPDU i).getSRM i = true := by
  rw [lsdbEntry.getSRM_iff]
  simp [lsdbEntry.newerLocalLSPDU, lsdbEntry.mem_srmFlags_setSRM]

theorem lsdbEntry.getSSN_newerLocalLSPDU_self (e : lsdbEntry) (i : netIfa) :
    (e.newerLocalLSPDU i).getSSN i = false := by
  rw [Bool.eq_false_iff]
  intro h
  rw [lsdbEntry.getSSN_iff] at h
  simp only [lsdbEntry.newerLocalLSPDU,
    lsdbEntry.mem_ssnFlags_clearSSNFlag] at h
  exact h.2 rfl

theorem srmFlags_foldl_setSRM (L : List netIfa) (e : lsdbEntry) (j : netIfa) :
    j ∈ (L.foldl (fun a i => a.setSRM i) e).srmFlags ↔
      j ∈ L ∨ j ∈ e.srmFlags := by
  induction L generalizing e with
  | nil => simp
  | cons i rest ih =>
    simp only [List.foldl_cons, ih, lsdbEntry.mem_srmFlags_setSRM,
      List.mem_cons]
    tauto

theorem ssnFlags_foldl_setSRM (L : List netIfa) (e : lsdbEntry) :
    (L.foldl (fun a i => a.setSRM i) e).ssnFlags = e.ssnFlags := by
  induction L generalizing e with
  | nil => rfl
  | cons i rest ih => simp [ih]

theorem lspdu_foldl_setSRM (L : List netIfa) (e : lsdbEntry) :
    (L.foldl (fun a i => a.setSRM i) e).lspdu = e.lspdu := by
  induction L generalizing e with
  | nil => rfl
  | cons i rest ih => simp [ih]

/-! ### Store-level lemmas -/

@[simp] theorem lspsGet_nil (j : Nat) : lspsGet [] j = none := rfl

theorem lspsGet_cons (k2 : Nat) (e2 : lsdbEntry) (rest : LSPMap) (j : Nat) :
    lspsGet ((k2, e2) :: rest) j =
      if k2 = j then some e2 else lspsGet rest j := rfl

theorem lspsGet_filter_ne (m : LSPMap) (k j : Nat) (h : ¬ k = j) :
    lspsGet (m.filter (fun p => decide (p.1 ≠ k))) j = lspsGet m j := by
  induction m with
  | nil => rfl
  | cons p rest ih =>
    obtain ⟨k2, e2⟩ := p
    by_cases h2 : k2 = k
    · subst h2
      rw [List.filter_cons_of_neg (by simp), ih, lspsGet_cons, if_neg h]
    · rw [List.filter_cons_of_pos (by simpa using h2), lspsGet_cons,
        lspsGet_cons]
      by_cases h3 : k2 = j
      · rw [if_pos h3, if_pos h3]
      · rw [if_neg h3, if_neg h3, ih]

theorem lspsGet_lspsSet (m : LSPMap) (k : Nat) (e : lsdbEntry) (j : Nat) :
    lspsGet (lspsSet m k e) j = if k = j then some e else lspsGet m j := by
  unfold lspsSet
  rw [lspsGet_cons]
  by_cases h : k = j
  · rw [if_pos h, if_pos h]
  · rw [if_neg h, if_neg h, lspsGet_filter_ne m k j h]

theorem lspsModify_cons (k2 : Nat) (e2 : lsdbEntry) (rest : LSPMap) (k : Nat)
    (f : lsdbEntry → lsdbEntry) :
    lspsModify ((k2, e2) :: rest) k f =
      (if k2 = k then (k2, f e2) else (k2, e2)) :: lspsModify rest k f := rfl

theorem lspsGet_lspsModify (m : LSPMap) (k : Nat) (f : lsdbEntry → lsdbEntry)
    (j : Nat) :
    lspsGet (lspsModify m k f) j =
      if k = j then (lspsGet m j).map f else lspsGet m j := by
  induction m with
  | nil =>
    show (none : Option lsdbEntry) = if k = j then Option.map f none else none
    split <;> rfl
  | cons p rest ih =>
    obtain ⟨k2, e2⟩ := p
    rw [lspsModify_cons]
    by_cases h1 : k2 = k
    · subst h1
      rw [if_pos rfl, lspsGet_cons, lspsGet_cons]
      by_cases h2 : k2 = j
      · simp only [if_pos h2]
        rfl
      · simp only [if_neg h2] at ih ⊢
        exact ih
    · rw [if_neg h1, lspsGet_cons, lspsGet_cons]
      by_cases h2 : k2 = j
      · have hkj : ¬ k = j := fun hh => h1 (h2.trans hh.symm)
        simp only [if_pos h2, if_neg hkj]
      · simp only [if_neg h2]
        exact ih

/-! ### processLSP -/

theorem processNewerLSPDU_spec (srv : Server) (m : LSPMap) (ifa : netIfa)
    (lspdu : LSPDU) :
    ∃ e, lspsGet (processNewerLSPDU srv m ifa lspdu) lspdu.LSPID = some e ∧
      e.lspdu = lspdu ∧
      (∀ i ∈ srv.interfaces, i ≠ ifa → e.getSRM i = true) ∧
      e.getSRM ifa = false ∧
      e.getSSN ifa = true := by
  unfold processNewerLSPDU
  refine ⟨_, by rw [lspsGet_lspsSet, if_pos rfl], ?_, ?_, ?_, ?_⟩
  · simp [lspdu_foldl_setSRM, newLSDBEntry]
  · intro i hi hne
    rw [lsdbEntry.getSRM_iff]
    simp only [lsdbEntry.srmFlags_setSSN, lsdbEntry.mem_srmFlags_clearSRMFlag]
    refine ⟨?_, hne⟩
    rw [srmFlags_foldl_setSRM]
    exact Or.inl (by simp [getAllInterfacesExcept, List.mem_filter, hi, hne])
  · rw [Bool.eq_false_iff]
    intro h
    rw [lsdbEntry.getSRM_iff] at h
    simp only [lsdbEntry.srmFlags_setSSN,
      lsdbEntry.mem_srmFlags_clearSRMFlag] at h
    exact h.2 rfl
  · rw [lsdbEntry.getSSN_iff]
    simp [lsdbEntry.mem_ssnFlags_setSSN]

/-- C1: when no entry exists for `lspdu.LSPID`, or the received sequence
number is strictly greater than the stored one, `processLSP` installs a
new entry built from `lspdu` with SRM set on every interface except
`ifa`, SRM clear on `ifa`, and SSN set on `ifa`. -/
theorem processLSP_installs_newer (srv : Server) (m : LSPMap) (ifa : netIfa)
    (lspdu : LSPDU)
    (hnew : ∀ e, lspsGet m lspdu.LSPID = some e →
      e.lspdu.SequenceNumber < lspdu.SequenceNumber) :
    ∃ e, lspsGet (processLSP srv m ifa lspdu) lspdu.LSPID = some e ∧
      e.lspdu = lspdu ∧
      (∀ i ∈ srv.interfaces, i ≠ ifa → e.getSRM i = true) ∧
      e.getSRM ifa = false ∧
      e.getSSN ifa = true := by
  unfold processLSP
  cases hget : lspsGet m lspdu.LSPID with
  | none => exact processNewerLSPDU_spec srv m ifa lspdu
  | some ex =>
    dsimp only
    rw [if_pos (hnew ex hget)]
    exact processNewerLSPDU_spec srv m ifa lspdu

/-- C1 witness: spec scenario 1 (flood-on-new) at concrete inputs. -/
theorem processLSP_installs_newer_witness :
    (∀ e, lspsGet ([] : LSPMap) 10 = some e →
      e.lspdu.SequenceNumber < (5 : Nat)) ∧
    (∃ e, lspsGet (processLSP ⟨[⟨1, false, 1, 1492⟩, ⟨2, false, 1, 1492⟩],
        7⟩ [] ⟨1, false, 1, 1492⟩ ⟨1200, 10, 5, 0⟩) 10 = some e ∧
      e.lspdu = ⟨1200, 10, 5, 0⟩ ∧
      (∀ i ∈ [⟨1, false, 1, 1492⟩, (⟨2, false, 1, 1492⟩ : netIfa)],
        i ≠ ⟨1, false, 1, 1492⟩ → e.getSRM i = true) ∧
      e.getSRM ⟨1, false, 1, 1492⟩ = false ∧
      e.getSSN ⟨1, false, 1, 1492⟩ = true) :=
  ⟨fun e h => by simp [lspsGet] at h,
   processLSP_installs_newer ⟨[⟨1, false, 1, 1492⟩, ⟨2, false, 1, 1492⟩], 7⟩
     [] ⟨1, false, 1, 1492⟩ ⟨1200, 10, 5, 0⟩
     (fun e h => by simp [lspsGet] at h)⟩

/-- C2: after `processLSP`, the store holds an entry for `lspdu.LSPID`
whose sequence number is `max prev_seq lspdu.SequenceNumber`; a lower
received sequence number never lowers the stored one. -/
theorem processLSP_seq_is_max (srv : Server) (m : LSPMap) (ifa : netIfa)
    (lspdu : LSPDU) :
    ∃ e, lspsGet (processLSP srv m ifa lspdu) lspdu.LSPID = some e ∧
      e.lspdu.SequenceNumber =
        max (prevSeqNumber m lspdu) lspdu.SequenceNumber := by
  unfold processLSP prevSeqNumber
  cases hget : lspsGet m lspdu.LSPID with
  | none =>
    dsimp only
    obtain ⟨e, he, helspdu, -⟩ := processNewerLSPDU_spec srv m ifa lspdu
    exact ⟨e, he, by rw [helspdu]; omega⟩
  | some ex =>
    dsimp only
    by_cases hlt : ex.lspdu.SequenceNumber < lspdu.SequenceNumber
    · rw [if_pos hlt]
      obtain ⟨e, he, helspdu, -⟩ := processNewerLSPDU_spec srv m ifa lspdu
      exact ⟨e, he, by rw [helspdu]; omega⟩
    · rw [if_neg hlt]
      by_cases heq : lspdu.SequenceNumber = ex.lspdu.SequenceNumber
      · rw [if_pos heq]
        refine ⟨ex.processSameLSPDU ifa, ?_, by simp; omega⟩
        rw [lspsGet_lspsModify, if_pos rfl, hget, Option.map_some']
      · rw [if_neg heq]
        refine ⟨ex.newerLocalLSPDU ifa, ?_, by simp; omega⟩
        rw [lspsGet_lspsModify, if_pos rfl, hget, Option.map_some']

/-- C3: on an existing entry, an equal-sequence LSPDU clears SRM and sets
SSN on the arrival interface; a strictly lower-sequence LSPDU sets SRM
and clears SSN on it. -/
theorem processLSP_same_or_older (srv : Server) (m : LSPMap) (ifa : netIfa)
    (lspdu : LSPDU) (ex : lsdbEntry)
    (hex : lspsGet m lspdu.LSPID = some ex) :
    (lspdu.SequenceNumber = ex.lspdu.SequenceNumber →
      ∃ e, lspsGet (processLSP srv m ifa lspdu) lspdu.LSPID = some e ∧
        e.getSRM ifa = false ∧ e.getSSN ifa = true) ∧
    (lspdu.SequenceNumber < ex.lspdu.SequenceNumber →
      ∃ e, lspsGet (processLSP srv m ifa lspdu) lspdu.LSPID = some e ∧
        e.getSRM ifa = true ∧ e.getSSN ifa = false) := by
  unfold processLSP
  rw [hex]
  dsimp only
  constructor
  · intro heq
    rw [if_neg (by omega), if_pos heq]
    refine ⟨ex.processSameLSPDU ifa, ?_, ?_, ?_⟩
    · rw [lspsGet_lspsModify, if_pos rfl, hex, Option.map_some']
    · exact lsdbEntry.getSRM_processSameLSPDU_self ex ifa
    · exact lsdbEntry.getSSN_processSameLSPDU_self ex ifa
  · intro hlt
    rw [if_neg (by omega), if_neg (by omega)]
    refine ⟨ex.newerLocalLSPDU ifa, ?_, ?_, ?_⟩
    · rw [lspsGet_lspsModify, if_pos rfl, hex, Option.map_some']
    · exact lsdbEntry.getSRM_newerLocalLSPDU_self ex ifa
    · exact lsdbEntry.getSSN_newerLocalLSPDU_self ex ifa

/-- C3 witness: spec scenario 3 (older reflood) and its equal-sequence
counterpart at seq 7 in the store. -/
theorem processLSP_same_or_older_witness :
    (lspsGet [(10, newLSDBEntry ⟨900, 10, 7, 0⟩)] 10 =
      some (newLSDBEntry ⟨900, 10, 7, 0⟩)) ∧
    ((3 : Nat) < (newLSDBEntry ⟨900, 10, 7, 0⟩).lspdu.SequenceNumber) ∧
    (∃ e, lspsGet (processLSP ⟨[⟨1, false, 1, 1492⟩], 7⟩
        [(10, newLSDBEntry ⟨900, 10, 7, 0⟩)] ⟨1, false, 1, 1492⟩
        ⟨900, 10, 3, 0⟩) 10 = some e ∧
      e.getSRM ⟨1, false, 1, 1492⟩ = true ∧
      e.getSSN ⟨1, false, 1, 1492⟩ = false) :=
  ⟨by rfl, by decide,
   (processLSP_same_or_older ⟨[⟨1, false, 1, 1492⟩], 7⟩
     [(10, newLSDBEntry ⟨900, 10, 7, 0⟩)] ⟨1, false, 1, 1492⟩
     ⟨900, 10, 3, 0⟩ (newLSDBEntry ⟨900, 10, 7, 0⟩) (by rfl)).2
     (by decide)⟩

/-! ### Aging -/

theorem lspsGet_eq_none_of_not_mem_keys (m : LSPMap) (k : Nat)
    (h : k ∉ m.map Prod.fst) : lspsGet m k = none := by
  induction m with
  | nil => rfl
  | cons p rest ih =>
    obtain ⟨k2, e2⟩ := p
    simp only [List.map_cons, List.mem_cons] at h
    push_neg at h
    rw [lspsGet_cons, if_neg (fun hh => h.1 hh.symm), ih h.2]

theorem decrementRemainingLifetimes_cons (k2 : Nat) (e2 : lsdbEntry)
    (rest : LSPMap) :
    decrementRemainingLifetimes ((k2, e2) :: rest) =
      if e2.lspdu.RemainingLifetime ≤ 1 then decrementRemainingLifetimes rest
      else (k2, { e2 with lspdu := { e2.lspdu with
        RemainingLifetime := e2.lspdu.RemainingLifetime - 1 } }) ::
        decrementRemainingLifetimes rest := by
  unfold decrementRemainingLifetimes
  rw [List.filterMap_cons]
  by_cases h : e2.lspdu.RemainingLifetime ≤ 1 <;> simp [h]

theorem keys_decrementRemainingLifetimes_subset (m : LSPMap) (k : Nat)
    (h : k ∈ (decrementRemainingLifetimes m).map Prod.fst) :
    k ∈ m.map Prod.fst := by
  induction m with
  | nil => simp [decrementRemainingLifetimes] at h
  | cons p rest ih =>
    obtain ⟨k2, e2⟩ := p
    rw [decrementRemainingLifetimes_cons] at h
    by_cases hL : e2.lspdu.RemainingLifetime ≤ 1
    · rw [if_pos hL] at h
      exact List.mem_cons_of_mem k2 (ih h)
    · rw [if_neg hL] at h
      simp only [List.map_cons, List.mem_cons] at h ⊢
      rcases h with h | h
      · exact Or.inl h
      · exact Or.inr (ih h)

/-- C4: one aging tick deletes exactly the entries with remaining
lifetime ≤ 1 and decrements every other entry's remaining lifetime by
exactly one, changing nothing else (per-LSPID characterization). -/
theorem decrementRemainingLifetimes_spec (m : LSPMap)
    (hnd : (m.map Prod.fst).Nodup) (k : Nat) :
    lspsGet (decrementRemainingLifetimes m) k =
      match lspsGet m k with
      | none => none
      | some e =>
        if e.lspdu.RemainingLifetime ≤ 1 then none
        else some { e with lspdu := { e.lspdu with
          RemainingLifetime := e.lspdu.RemainingLifetime - 1 } } := by
  induction m with
  | nil => rfl
  | cons p rest ih =>
    obtain ⟨k2, e2⟩ := p
    simp only [List.map_cons, List.nodup_cons] at hnd
    rw [decrementRemainingLifetimes_cons]
    by_cases hk : k2 = k
    · subst hk
      rw [lspsGet_cons, if_pos rfl]
      by_cases hL : e2.lspdu.RemainingLifetime ≤ 1
      · rw [if_pos hL]
        dsimp only
        rw [if_pos hL]
        refine lspsGet_eq_none_of_not_mem_keys _ _ (fun hmem => ?_)
        exact hnd.1 (keys_decrementRemainingLifetimes_subset rest k2 hmem)
      · rw [if_neg hL, lspsGet_cons, if_pos rfl]
        dsimp only
        rw [if_neg hL]
    · rw [lspsGet_cons, if_neg hk]
      by_cases hL : e2.lspdu.RemainingLifetime ≤ 1
      · rw [if_pos hL, ih hnd.2]
      · rw [if_neg hL, lspsGet_cons, if_neg hk, ih hnd.2]

/-- C4 witness: a two-entry store, one entry at the purge boundary
(lifetime 1, deleted) and one above it (lifetime 5, decremented). -/
theorem decrementRemainingLifetimes_spec_witness :
    (([(20, newLSDBEntry ⟨1, 20, 4, 0⟩), (21, newLSDBEntry ⟨5, 21, 4, 0⟩)].map
        Prod.fst).Nodup) ∧
    (lspsGet (decrementRemainingLifetimes
        [(20, newLSDBEntry ⟨1, 20, 4, 0⟩), (21, newLSDBEntry ⟨5, 21, 4, 0⟩)])
        20 =
      match lspsGet [(20, newLSDBEntry ⟨1, 20, 4, 0⟩),
          (21, newLSDBEntry ⟨5, 21, 4, 0⟩)] 20 with
      | none => none
      | some e =>
        if e.lspdu.RemainingLifetime ≤ 1 then none
        else some { e with lspdu := { e.lspdu with
          RemainingLifetime := e.lspdu.RemainingLifetime - 1 } }) :=
  ⟨by decide,
   decrementRemainingLifetimes_spec
     [(20, newLSDBEntry ⟨1, 20, 4, 0⟩), (21, newLSDBEntry ⟨5, 21, 4, 0⟩)]
     (by decide) 20⟩

/-! ### More flag lemmas -/

theorem lsdbEntry.getSSN_setSSN_self (e : lsdbEntry) (i : netIfa) :
    (e.setSSN i).getSSN i = true := by
  rw [lsdbEntry.getSSN_iff, lsdbEntry.mem_ssnFlags_setSSN]
  exact Or.inl rfl

theorem lsdbEntry.getSRM_setSRM_self (e : lsdbEntry) (i : netIfa) :
    (e.setSRM i).getSRM i = true := by
  rw [lsdbEntry.getSRM_iff, lsdbEntry.mem_srmFlags_setSRM]
  exact Or.inl rfl

theorem lsdbEntry.getSRM_clearSRMFlag_self (e : lsdbEntry) (i : netIfa) :
    (e.clearSRMFlag i).getSRM i = false := by
  rw [Bool.eq_false_iff]
  intro h
  rw [lsdbEntry.getSRM_iff, lsdbEntry.mem_srmFlags_clearSRMFlag] at h
  exact h.2 rfl

theorem lsdbEntry.clearSRMFlag_idem (e : lsdbEntry) (i : netIfa) :
    (e.clearSRMFlag i).clearSRMFlag i = e.clearSRMFlag i := by
  unfold lsdbEntry.clearSRMFlag
  simp [List.filter_filter]

/-! ### processCSNP unknown entries -/

/-- C7: an LSPEntry listed in a CSNP whose LSPID is absent from the store
makes `processCSNPLSPEntry` take the unknown path: a fresh empty entry is
inserted for that LSPID with SSN set towards the sender, and no other key
changes. -/
theorem processCSNPLSPEntry_unknown_spec (m : LSPMap) (le : LSPEntry)
    (frm : netIfa) (h : lspsGet m le.LSPID = none) :
    processCSNPLSPEntry m le frm = processCSNPLSPEntryUnknown m le frm ∧
    lspsGet (processCSNPLSPEntry m le frm) le.LSPID =
      some ((newEmptyLSDBEntry le).setSSN frm) ∧
    ((newEmptyLSDBEntry le).setSSN frm).getSSN frm = true ∧
    (∀ k, ¬ le.LSPID = k →
      lspsGet (processCSNPLSPEntry m le frm) k = lspsGet m k) := by
  have hunfold : processCSNPLSPEntry m le frm =
      processCSNPLSPEntryUnknown m le frm := by
    unfold processCSNPLSPEntry lsdb_getLSPDU
    rw [h]
  refine ⟨hunfold, ?_, lsdbEntry.getSSN_setSSN_self _ frm, ?_⟩
  · rw [hunfold]
    unfold processCSNPLSPEntryUnknown
    rw [lspsGet_lspsSet, if_pos rfl]
  · intro k hk
    rw [hunfold]
    unfold processCSNPLSPEntryUnknown
    rw [lspsGet_lspsSet, if_neg hk]

/-- C7 witness: spec scenario 5 (CSNP lists unknown Y at seq 2). -/
theorem processCSNPLSPEntry_unknown_spec_witness :
    (lspsGet ([] : LSPMap) (⟨500, 11, 2, 0⟩ : LSPEntry).LSPID = none) ∧
    lspsGet (processCSNPLSPEntry [] ⟨500, 11, 2, 0⟩ ⟨1, false, 1, 1492⟩)
        (⟨500, 11, 2, 0⟩ : LSPEntry).LSPID =
      some ((newEmptyLSDBEntry ⟨500, 11, 2, 0⟩).setSSN ⟨1, false, 1, 1492⟩) :=
  ⟨rfl,
   (processCSNPLSPEntry_unknown_spec [] ⟨500, 11, 2, 0⟩ ⟨1, false, 1, 1492⟩
     rfl).2.1⟩

/-! ### processPSNP -/

theorem processPSNP_fold_spec (L : List LSPEntry) (m : LSPMap)
    (frm : netIfa) (k : Nat) :
    lspsGet (L.foldl
      (fun acc lspEntry =>
        match lspsGet acc lspEntry.LSPID with
        | none => acc
        | some _ =>
          lspsModify acc lspEntry.LSPID (fun e => e.clearSRMFlag frm)) m) k =
      (lspsGet m k).map (fun e =>
        if L.any (fun le => decide (le.LSPID = k)) then e.clearSRMFlag frm
        else e) := by
  induction L generalizing m with
  | nil =>
    rw [List.foldl_nil]
    cases lspsGet m k <;> rfl
  | cons le rest ih =>
    rw [List.foldl_cons]
    have hstep : ∀ j, lspsGet (match lspsGet m le.LSPID with
        | none => m
        | some _ =>
          lspsModify m le.LSPID (fun e => e.clearSRMFlag frm)) j =
        (lspsGet m j).map (fun e =>
          if le.LSPID = j then e.clearSRMFlag frm else e) := by
      intro j
      cases hg : lspsGet m le.LSPID with
      | none =>
        dsimp only
        by_cases hj : le.LSPID = j
        · rw [← hj, hg]
          rfl
        · cases lspsGet m j <;> simp [hj]
      | some e0 =>
        dsimp only
        rw [lspsGet_lspsModify]
        by_cases hj : le.LSPID = j
        · rw [if_pos hj]
          cases lspsGet m j <;> simp [hj]
        · rw [if_neg hj]
          cases lspsGet m j <;> simp [hj]
    rw [ih, hstep k]
    cases hmk : lspsGet m k with
    | none => rfl
    | some e =>
      simp only [Option.map_some']
      by_cases hk : le.LSPID = k <;>
        by_cases hany : rest.any (fun le2 => decide (le2.LSPID = k)) = true <;>
          simp [List.any_cons, hk, hany, lsdbEntry.clearSRMFlag_idem]

/-- C8: `processPSNP` clears SRM towards the sender on every stored entry
the PSNP lists, and changes nothing else - a listed LSPID not in the
store is silently ignored (no entry created, nothing modified), and for a
listed LSPID that is held the resulting entry has SRM clear on the
sender's interface. -/
theorem processPSNP_spec (m : LSPMap) (frm : netIfa) (psnp : PSNP)
    (k : Nat) :
    (lspsGet (processPSNP m frm psnp) k =
      (lspsGet m k).map (fun e =>
        if psnp.GetLSPEntries.any (fun le => decide (le.LSPID = k))
        then e.clearSRMFlag frm else e)) ∧
    (psnp.GetLSPEntries.any (fun le => decide (le.LSPID = k)) = true →
      ∀ e, lspsGet (processPSNP m frm psnp) k = some e →
        e.getSRM frm = false) := by
  have hmain := processPSNP_fold_spec psnp.GetLSPEntries m frm k
  refine ⟨hmain, ?_⟩
  intro hany e he
  unfold processPSNP at he
  rw [hmain] at he
  cases hmk : lspsGet m k with
  | none => rw [hmk] at he; cases he
  | some e0 =>
    rw [hmk, Option.map_some', Option.some.injEq, if_pos hany] at he
    rw [← he]
    exact lsdbEntry.getSRM_clearSRMFlag_self e0 frm

/-- C8 witness: spec scenario 2 - a PSNP from B listing the stored LSPID
10 plus an unknown LSPID 99; the SRM flag towards B is cleared and the
unknown LSPID changes nothing. -/
theorem processPSNP_spec_witness :
    ((⟨9, [⟨1200, 10, 5, 0⟩, ⟨1200, 99, 5, 0⟩]⟩ : PSNP).GetLSPEntries.any
        (fun le => decide (le.LSPID = 10)) = true) ∧
    (∀ e, lspsGet (processPSNP
        [(10, (newLSDBEntry ⟨1200, 10, 5, 0⟩).setSRM ⟨2, false, 1, 1492⟩)]
        ⟨2, false, 1, 1492⟩
        ⟨9, [⟨1200, 10, 5, 0⟩, ⟨1200, 99, 5, 0⟩]⟩) 10 = some e →
      e.getSRM ⟨2, false, 1, 1492⟩ = false) :=
  ⟨by decide,
   (processPSNP_spec
     [(10, (newLSDBEntry ⟨1200, 10, 5, 0⟩).setSRM ⟨2, false, 1, 1492⟩)]
     ⟨2, false, 1, 1492⟩
     ⟨9, [⟨1200, 10, 5, 0⟩, ⟨1200, 99, 5, 0⟩]⟩ 10).2 (by decide)⟩

/-! ### processCSNP gap scan -/

/-- C6: after the per-entry phase of `processCSNP`, the gap scan sets SRM
towards the sender exactly on those stored entries whose LSPID lies in
the CSNP range, is not listed in the CSNP, and whose remaining lifetime
and sequence number are positive; every other entry passes through the
gap scan unchanged. -/
theorem processCSNP_gap_spec (m : LSPMap) (frm : netIfa) (csnp : CSNP)
    (k : Nat) (e : lsdbEntry)
    (h : (k, e) ∈ processCSNPEntries m frm csnp) :
    ((0 < e.lspdu.RemainingLifetime ∧ 0 < e.lspdu.SequenceNumber ∧
      csnp.RangeContainsLSPID k = true ∧ csnp.ContainsLSPEntry k = false) →
      (k, e.setSRM frm) ∈ processCSNP m frm csnp ∧
      (e.setSRM frm).getSRM frm = true) ∧
    (¬ (0 < e.lspdu.RemainingLifetime ∧ 0 < e.lspdu.SequenceNumber ∧
      csnp.RangeContainsLSPID k = true ∧ csnp.ContainsLSPEntry k = false) →
      (k, e) ∈ processCSNP m frm csnp) := by
  unfold processCSNP processCSNPGapScan
  constructor
  · rintro ⟨hlife, hseq, hrange, hlisted⟩
    refine ⟨?_, lsdbEntry.getSRM_setSRM_self e frm⟩
    have := List.mem_map_of_mem (fun p : Nat × lsdbEntry =>
      if p.2.lspdu.RemainingLifetime ≤ 0 ∨ p.2.lspdu.SequenceNumber ≤ 0 then p
      else if ¬ (csnp.RangeContainsLSPID p.1 = true) then p
      else if ¬ (csnp.ContainsLSPEntry p.1 = true) then (p.1, p.2.setSRM frm)
      else p) h
    dsimp only at this
    rwa [if_neg (by omega), if_neg (by rw [hrange]; exact fun hc => hc rfl),
      if_pos (by rw [hlisted]; exact Bool.false_ne_true)] at this
  · intro hnot
    have := List.mem_map_of_mem (fun p : Nat × lsdbEntry =>
      if p.2.lspdu.RemainingLifetime ≤ 0 ∨ p.2.lspdu.SequenceNumber ≤ 0 then p
      else if ¬ (csnp.RangeContainsLSPID p.1 = true) then p
      else if ¬ (csnp.ContainsLSPEntry p.1 = true) then (p.1, p.2.setSRM frm)
      else p) h
    dsimp only at this
    by_cases h1 : e.lspdu.RemainingLifetime ≤ 0 ∨ e.lspdu.SequenceNumber ≤ 0
    · rwa [if_pos h1] at this
    · rw [if_neg h1] at this
      by_cases h2 : csnp.RangeContainsLSPID k = true
      · rw [if_neg (fun hc => hc h2)] at this
        by_cases h3 : csnp.ContainsLSPEntry k = true
        · rwa [if_neg (fun hc => hc h3)] at this
        · exact absurd ⟨by omega, by omega, h2,
            Bool.eq_false_iff.mpr h3⟩ hnot
      · rwa [if_pos h2] at this

/-- C6 witness: spec scenario 4 - the store holds LSPID 10 (seq 4,
lifetime 900) inside the range of a CSNP that does not list it, so the
gap scan sets SRM towards the sender; the hypotheses are discharged at
this concrete store. -/
theorem processCSNP_gap_spec_witness :
    ((10, newLSDBEntry ⟨900, 10, 4, 0⟩) ∈
      processCSNPEntries [(10, newLSDBEntry ⟨900, 10, 4, 0⟩)]
        ⟨1, false, 1, 1492⟩ ⟨9, 0, 100, []⟩) ∧
    (0 < (newLSDBEntry ⟨900, 10, 4, 0⟩).lspdu.RemainingLifetime ∧
     0 < (newLSDBEntry ⟨900, 10, 4, 0⟩).lspdu.SequenceNumber ∧
     (⟨9, 0, 100, []⟩ : CSNP).RangeContainsLSPID 10 = true ∧
     (⟨9, 0, 100, []⟩ : CSNP).ContainsLSPEntry 10 = false) ∧
    ((10, (newLSDBEntry ⟨900, 10, 4, 0⟩).setSRM ⟨1, false, 1, 1492⟩) ∈
      processCSNP [(10, newLSDBEntry ⟨900, 10, 4, 0⟩)]
        ⟨1, false, 1, 1492⟩ ⟨9, 0, 100, []⟩) :=
  ⟨by decide, by decide,
   ((processCSNP_gap_spec [(10, newLSDBEntry ⟨900, 10, 4, 0⟩)]
     ⟨1, false, 1, 1492⟩ ⟨9, 0, 100, []⟩ 10 (newLSDBEntry ⟨900, 10, 4, 0⟩)
     (by decide)).1 (by decide)).1⟩

/-! ### Lifetime invariant -/

theorem lifetimeAtLeastOne_lspsModify (m : LSPMap) (k : Nat)
    (f : lsdbEntry → lsdbEntry) (hf : ∀ e, (f e).lspdu = e.lspdu)
    (hm : lifetimeAtLeastOne m) : lifetimeAtLeastOne (lspsModify m k f) := by
  intro p hp
  obtain ⟨q, hq, rfl⟩ := List.mem_map.mp hp
  by_cases h : q.1 = k
  · rw [if_pos h]
    dsimp only
    rw [hf]
    exact hm q hq
  · rw [if_neg h]
    exact hm q hq

theorem lifetimeAtLeastOne_lspsSet (m : LSPMap) (k : Nat) (e : lsdbEntry)
    (he : 1 ≤ e.lspdu.RemainingLifetime) (hm : lifetimeAtLeastOne m) :
    lifetimeAtLeastOne (lspsSet m k e) := by
  intro p hp
  unfold lspsSet at hp
  rcases List.mem_cons.mp hp with rfl | hp
  · exact he
  · exact hm p (List.mem_of_mem_filter hp)

theorem lifetimeAtLeastOne_processLSP (srv : Server) (m : LSPMap)
    (ifa : netIfa) (lspdu : LSPDU) (hpdu : 1 ≤ lspdu.RemainingLifetime)
    (hm : lifetimeAtLeastOne m) :
    lifetimeAtLeastOne (processLSP srv m ifa lspdu) := by
  have hnewer : lifetimeAtLeastOne (processNewerLSPDU srv m ifa lspdu) := by
    unfold processNewerLSPDU
    refine lifetimeAtLeastOne_lspsSet m _ _ ?_ hm
    simp only [lsdbEntry.lspdu_setSSN, lsdbEntry.lspdu_clearSRMFlag,
      lspdu_foldl_setSRM, newLSDBEntry]
    exact hpdu
  unfold processLSP
  cases lspsGet m lspdu.LSPID with
  | none => exact hnewer
  | some ex =>
    dsimp only
    split
    · exact hnewer
    · split
      · exact lifetimeAtLeastOne_lspsModify m _ _
          (fun e => lsdbEntry.lspdu_processSameLSPDU e ifa) hm
      · exact lifetimeAtLeastOne_lspsModify m _ _
          (fun e => lsdbEntry.lspdu_newerLocalLSPDU e ifa) hm

theorem lifetimeAtLeastOne_processCSNPLSPEntry (m : LSPMap) (le : LSPEntry)
    (frm : netIfa) (hle : 1 ≤ le.RemainingLifetime)
    (hm : lifetimeAtLeastOne m) :
    lifetimeAtLeastOne (processCSNPLSPEntry m le frm) := by
  unfold processCSNPLSPEntry processCSNPLSPEntryUnknown lsdb_getLSPDU
  cases lspsGet m le.LSPID with
  | none =>
    dsimp only
    refine lifetimeAtLeastOne_lspsSet m _ _ ?_ hm
    simp only [lsdbEntry.lspdu_setSSN]
    exact hle
  | some e =>
    dsimp only
    split
    · exact lifetimeAtLeastOne_lspsModify m _ _
        (fun x => lsdbEntry.lspdu_clearSRMFlag x frm) hm
    · split
      · exact lifetimeAtLeastOne_lspsModify m _ _
          (fun x => by simp) hm
      · split
        · exact lifetimeAtLeastOne_lspsModify m _ _
            (fun x => by simp) hm
        · exact hm

theorem lifetimeAtLeastOne_fold_entries (L : List LSPEntry) (m : LSPMap)
    (frm : netIfa) (hL : ∀ le ∈ L, 1 ≤ le.RemainingLifetime)
    (hm : lifetimeAtLeastOne m) :
    lifetimeAtLeastOne
      (L.foldl (fun acc e => processCSNPLSPEntry acc e frm) m) := by
  induction L generalizing m with
  | nil => exact hm
  | cons le rest ih =>
    rw [List.foldl_cons]
    exact ih _ (fun x hx => hL x (List.mem_cons_of_mem le hx))
      (lifetimeAtLeastOne_processCSNPLSPEntry m le frm
        (hL le (List.mem_cons_self le rest)) hm)

theorem lifetimeAtLeastOne_processCSNPGapScan (m : LSPMap) (frm : netIfa)
    (csnp : CSNP) (hm : lifetimeAtLeastOne m) :
    lifetimeAtLeastOne (processCSNPGapScan m frm csnp) := by
  intro p hp
  obtain ⟨q, hq, rfl⟩ := List.mem_map.mp hp
  have hq2 := hm q hq
  split_ifs <;> simpa using hq2

theorem lifetimeAtLeastOne_processPSNP (m : LSPMap) (frm : netIfa)
    (psnp : PSNP) (hm : lifetimeAtLeastOne m) :
    lifetimeAtLeastOne (processPSNP m frm psnp) := by
  unfold processPSNP
  induction psnp.GetLSPEntries generalizing m with
  | nil => exact hm
  | cons le rest ih =>
    rw [List.foldl_cons]
    refine ih _ ?_
    cases lspsGet m le.LSPID with
    | none => exact hm
    | some e =>
      exact lifetimeAtLeastOne_lspsModify m _ _
        (fun x => lsdbEntry.lspdu_clearSRMFlag x frm) hm

/-- C5 counterexample: `processLSP` on an empty store with an LSPDU whose
remaining lifetime is 0 leaves a stored entry with remaining lifetime 0,
so the invariant does not hold after every `processLSP` call. -/
theorem lifetime_invariant_counterexample :
    (lspsGet (processLSP ⟨[⟨1, false, 1, 1492⟩], 7⟩ [] ⟨1, false, 1, 1492⟩
      ⟨0, 10, 5, 0⟩) 10).map (fun e => e.lspdu.RemainingLifetime) =
      some 0 := by decide

/-- C5 (amended): every store-mutating operation preserves the invariant
that no stored entry has remaining lifetime 0, provided the received
LSPDU (for `processLSP`) and every LSPEntry listed in the received CSNP
(for `processCSNP`) carry a remaining lifetime of at least 1; aging,
`processPSNP` and the PSNP transmit routine preserve it unconditionally
(the LSPDU and CSNP transmit routines do not write the store at all). -/
theorem lifetime_invariant_preserved (srv : Server) (m : LSPMap)
    (ifa frm frm2 : netIfa) (lspdu : LSPDU) (csnp : CSNP) (psnp : PSNP)
    (hm : lifetimeAtLeastOne m) :
    lifetimeAtLeastOne (decrementRemainingLifetimes m) ∧
    (1 ≤ lspdu.RemainingLifetime →
      lifetimeAtLeastOne (processLSP srv m ifa lspdu)) ∧
    ((∀ le ∈ csnp.GetLSPEntries, 1 ≤ le.RemainingLifetime) →
      lifetimeAtLeastOne (processCSNP m frm csnp)) ∧
    lifetimeAtLeastOne (processPSNP m frm2 psnp) ∧
    lifetimeAtLeastOne (sendPSNPss srv m).2 := by
  refine ⟨?_, ?_, ?_, ?_, ?_⟩
  · intro p hp
    obtain ⟨q, hq, hfq⟩ := List.mem_filterMap.mp hp
    by_cases h : q.2.lspdu.RemainingLifetime ≤ 1
    · rw [if_pos h] at hfq
      cases hfq
    · rw [if_neg h] at hfq
      cases hfq
      simp only
      omega
  · exact fun hpdu => lifetimeAtLeastOne_processLSP srv m ifa lspdu hpdu hm
  · intro hcs
    exact lifetimeAtLeastOne_processCSNPGapScan _ frm csnp
      (lifetimeAtLeastOne_fold_entries csnp.GetLSPEntries m frm hcs hm)
  · exact lifetimeAtLeastOne_processPSNP m frm2 psnp hm
  · intro p hp
    obtain ⟨q, hq, rfl⟩ := List.mem_map.mp hp
    simpa using hm q hq

/-- C5 witness: the amended invariant applied to a one-entry store with
lifetime 900 and lifetime-≥1 inputs, here observed after aging. -/
theorem lifetime_invariant_preserved_witness :
    lifetimeAtLeastOne [(10, newLSDBEntry ⟨900, 10, 4, 0⟩)] ∧
    lifetimeAtLeastOne
      (decrementRemainingLifetimes [(10, newLSDBEntry ⟨900, 10, 4, 0⟩)]) :=
  ⟨by unfold lifetimeAtLeastOne; decide,
   (lifetime_invariant_preserved ⟨[⟨1, false, 1, 1492⟩], 7⟩
     [(10, newLSDBEntry ⟨900, 10, 4, 0⟩)] ⟨1, false, 1, 1492⟩
     ⟨1, false, 1, 1492⟩ ⟨1, false, 1, 1492⟩ ⟨900, 10, 5, 0⟩
     ⟨9, 0, 100, []⟩ ⟨9, []⟩ (by unfold lifetimeAtLeastOne; decide)).1⟩

/-! ### Transmit routines and passive interfaces -/

/-- C9: the LSPDU transmit routine and the PSNP transmit routine never
invoke the send primitive with a passive interface, whatever SRM or SSN
flags are set. -/
theorem passive_interfaces_never_sent (srv : Server) (m : LSPMap) :
    (∀ ev ∈ sendLSPDUs m, ev.1.Passive = false) ∧
    (∀ ev ∈ (sendPSNPss srv m).1, ev.1.Passive = false) := by
  constructor
  · intro ev
    unfold sendLSPDUs
    induction m with
    | nil => intro h; cases h
    | cons p rest ih =>
      rw [List.foldr_cons]
      intro h
      rcases List.mem_append.mp h with h | h
      · obtain ⟨i, hi, rfl⟩ := List.mem_map.mp h
        have := List.mem_filter.mp hi
        simpa using this.2
      · exact ih h
  · intro ev
    unfold sendPSNPss
    dsimp only
    have haux : ∀ (L : List netIfa),
        ev ∈ L.foldr (fun ifa acc =>
          if ifa.Passive then acc
          else ((NewPSNPs srv.systemID (lsdb_getLSPWithSSNSet m ifa)
            ifa.MTU).map (fun psnp => (ifa, psnp))) ++ acc) [] →
        ev.1.Passive = false := by
      intro L
      induction L with
      | nil => intro h; cases h
      | cons i rest ih =>
        rw [List.foldr_cons]
        by_cases hP : i.Passive
        · rw [if_pos hP]
          exact ih
        · rw [if_neg hP]
          intro h
          rcases List.mem_append.mp h with h | h
          · obtain ⟨psnp, hpsnp, rfl⟩ := List.mem_map.mp h
            exact Bool.eq_false_iff.mpr hP
          · exact ih h
    exact haux (getAllInterfaces srv)

/-- C9 witness: a store with SRM and SSN set on both a passive and a
non-passive interface; the recorded send invocations hit the non-passive
interface and the theorem shows every recorded invocation is
non-passive. -/
theorem passive_interfaces_never_sent_witness :
    ((ifaW1, (⟨1200, 10, 5, 0⟩ : LSPDU)) ∈ sendLSPDUs mW ∧
      ifaW1.Passive = false) ∧
    ((ifaW1, (⟨7, [⟨1200, 10, 5, 0⟩]⟩ : PSNP)) ∈ (sendPSNPss srvW mW).1 ∧
      ifaW1.Passive = false) :=
  ⟨⟨by decide, (passive_interfaces_never_sent srvW mW).1
     (ifaW1, ⟨1200, 10, 5, 0⟩) (by decide)⟩,
   ⟨by decide, (passive_interfaces_never_sent srvW mW).2
     (ifaW1, ⟨7, [⟨1200, 10, 5, 0⟩]⟩) (by decide)⟩⟩

theorem NewCSNPs_ne_nil (srcID : Nat) (entries : List LSPEntry)
    (mtu : Nat) : NewCSNPs srcID entries mtu ≠ [] := by
  unfold NewCSNPs
  cases entries with
  | nil => simp
  | cons e rest => simp [chunkEntries, chunkEntriesFuel]

/-- C10: the CSNP transmit routine decides purely on the up-L2-neighbor
count - every managed interface with at least one up L2 neighbor gets at
least one CSNP sent on it (its passive flag is never consulted), and
every recorded CSNP send goes to an interface with at least one up L2
neighbor. -/
theorem sendCSNPss_spec (srv : Server) (m : LSPMap) :
    (∀ ifa ∈ getAllInterfaces srv, 1 ≤ ifa.upL2Neighbors →
      ∃ c, (ifa, c) ∈ sendCSNPss srv m) ∧
    (∀ ev ∈ sendCSNPss srv m, 1 ≤ ev.1.upL2Neighbors) := by
  unfold sendCSNPss
  have hmem : ∀ (L : List netIfa) (ifa : netIfa), ifa ∈ L →
      1 ≤ ifa.upL2Neighbors →
      ∃ c, (ifa, c) ∈ L.foldr (fun i acc =>
        if i.upL2Neighbors < 1 then acc else sendCSNPs srv m i ++ acc)
        [] := by
    intro L
    induction L with
    | nil => intro ifa h; cases h
    | cons i rest ih =>
      intro ifa hifa hup
      rw [List.foldr_cons]
      rcases List.mem_cons.mp hifa with rfl | hifa
      · rw [if_neg (by omega)]
        obtain ⟨c, hc⟩ := List.exists_mem_of_ne_nil (getCSNPs srv m ifa)
          (NewCSNPs_ne_nil srv.systemID (getLSPEntries m) ifa.MTU)
        exact ⟨c, List.mem_append_left _
          (List.mem_map_of_mem (fun c => (ifa, c)) hc)⟩
      · obtain ⟨c, hc⟩ := ih ifa hifa hup
        by_cases hi : i.upL2Neighbors < 1
        · rw [if_pos hi]
          exact ⟨c, hc⟩
        · rw [if_neg hi]
          exact ⟨c, List.mem_append_right _ hc⟩
  have hup2 : ∀ (L : List netIfa) (ev : netIfa × CSNP),
      ev ∈ L.foldr (fun i acc =>
        if i.upL2Neighbors < 1 then acc else sendCSNPs srv m i ++ acc) [] →
      1 ≤ ev.1.upL2Neighbors := by
    intro L
    induction L with
    | nil => intro ev h; cases h
    | cons i rest ih =>
      intro ev
      rw [List.foldr_cons]
      by_cases hi : i.upL2Neighbors < 1
      · rw [if_pos hi]
        exact ih ev
      · rw [if_neg hi]
        intro h
        rcases List.mem_append.mp h with h | h
        · obtain ⟨c, hc, rfl⟩ := List.mem_map.mp h
          exact Nat.not_lt.mp hi
        · exact ih ev h
  exact ⟨fun ifa h hup => hmem _ ifa h hup, fun ev h => hup2 _ ev h⟩

/-- C10 witness: a passive interface with two up L2 neighbors gets a CSNP
sent; a concrete recorded send confirms the neighbor-count condition. -/
theorem sendCSNPss_spec_witness :
    (ifaWPassive2 ∈ getAllInterfaces srvC ∧
      1 ≤ ifaWPassive2.upL2Neighbors ∧
      ∃ c, (ifaWPassive2, c) ∈ sendCSNPss srvC []) ∧
    ((ifaWPassive2, (⟨7, 0, maxLSPID, []⟩ : CSNP)) ∈ sendCSNPss srvC [] ∧
      1 ≤ (ifaWPassive2, (⟨7, 0, maxLSPID, []⟩ : CSNP)).1.upL2Neighbors) :=
  ⟨⟨by decide, by decide,
    (sendCSNPss_spec srvC []).1 ifaWPassive2 (by decide) (by decide)⟩,
   ⟨by decide, (sendCSNPss_spec srvC []).2
     (ifaWPassive2, ⟨7, 0, maxLSPID, []⟩) (by decide)⟩⟩

end ISIS
